import Mathlib

/-!
Verification development for the rule-condition editor component
(`RuleConditions` and its nested components `RuleExpression`,
`ConditionValueInput`, `ResourceListSelect`, `ValueInputAutocomplete`)
and for the application-template configuration aggregator
(`getApplicationTemplatesConfig`).

The embedding is shallow: each component's render output is a pure
function from its props and the results of its data hooks to a data
value describing what is rendered, together with the list of
`updateConditionExpression` calls that the render itself issues.
Event handlers (onChange handlers and the debounced value handler)
are embedded as pure functions from the event payload to the list of
dispatched calls.  JavaScript `undefined` is modelled as `Option`;
JavaScript truthiness of strings (the empty string is falsy) is made
explicit where the source relies on it.
-/

/-- `AdjoiningOperatorTypes` enum from the rules model. -/
inductive AdjoiningOperatorTypes where
  | And
  | Or
deriving DecidableEq, Repr

/-- `ExpressionFieldTypes` enum from the rules model: which field of a
condition expression an `updateConditionExpression` call targets. -/
inductive ExpressionFieldTypes where
  | Field
  | Operator
  | Value
deriving DecidableEq, Repr

/-- `ConditionExpressionInterface`: a single field/operator/value comparison. -/
structure ConditionExpressionInterface where
  id : String
  field : String
  operator : String
  value : String
deriving DecidableEq, Repr

/-- `RuleConditionInterface`: an adjoining operator over a list of expressions. -/
structure RuleConditionInterface where
  id : String
  condition : AdjoiningOperatorTypes
  expressions : List ConditionExpressionInterface
deriving DecidableEq, Repr

/-- `RuleInterface`: a rule with its outer adjoining operator and its list of
conditions (the source names that list `rules`). -/
structure RuleInterface where
  id : String
  condition : AdjoiningOperatorTypes
  rules : List RuleConditionInterface
deriving DecidableEq, Repr

/-- One call to the rule context's `updateConditionExpression`, in the
source's argument order.  `changedValue` is an `Option` because the
source can pass an undefined value (for instance
`fetchedResourcesList[resourceType][0]?.id` on an empty collection). -/
structure UpdateConditionExpressionCall where
  changedValue : Option String
  ruleId : String
  conditionId : String
  expressionId : String
  fieldName : ExpressionFieldTypes
  isUserOnChange : Bool
deriving DecidableEq, Repr

/-!
## Debounce semantics

`handleExpressionChangeDebounced` is `debounce(updateConditionExpression-forwarder, 300)`
(lodash `debounce`, default options: trailing edge only).  It is created in
the body of the `RuleConditions` component and closed over by every nested
expression component, so within one render of `RuleConditions` a single
debounced instance is shared by all expressions of the rule.

Lodash trailing-only debounce semantics: each call stores its arguments and
(re)arms the timer for `wait` after that call; when the timer fires the
wrapped function is invoked with the last stored arguments.  We model a
chronologically ordered list of calls `(time, args)` and compute the list of
underlying invocations `(time, args)`.
-/

/-- Trailing-edge debounce interpreter.  The accumulator holds the pending
invocation `(deadline, args)`; a call arriving at or after the deadline lets
the pending invocation fire first, then replaces it. -/
def debounceRunAux (wait : Nat) :
    Option (Nat × UpdateConditionExpressionCall) →
    List (Nat × UpdateConditionExpressionCall) →
    List (Nat × UpdateConditionExpressionCall)
  | some pending, [] => [pending]
  | none, [] => []
  | some pending, (t, a) :: rest =>
      if pending.1 ≤ t then
        pending :: debounceRunAux wait (some (t + wait, a)) rest
      else
        debounceRunAux wait (some (t + wait, a)) rest
  | none, (t, a) :: rest => debounceRunAux wait (some (t + wait, a)) rest

/-- Dispatches produced by a lodash trailing-only debounce of
`updateConditionExpression` for a chronological call sequence. -/
def debounceRun (wait : Nat) (calls : List (Nat × UpdateConditionExpressionCall)) :
    List (Nat × UpdateConditionExpressionCall) :=
  debounceRunAux wait none calls

/-- `handleExpressionChangeDebounced`: the component's debounced forwarder to
`updateConditionExpression`, with the fixed 300 wait of the source.  One
instance is shared by every expression of the rule component. -/
def handleExpressionChangeDebounced
    (calls : List (Nat × UpdateConditionExpressionCall)) :
    List (Nat × UpdateConditionExpressionCall) :=
  debounceRun 300 calls

/-!
## Field selector handler (`RuleExpression`)

The field `Select`'s `onChange` performs two sequential, unbatched
dispatches: first `updateConditionExpression(e.target.value, …, Field, true)`,
then `updateConditionExpression("", …, Value, true)`.
-/

/-- The `onChange` handler of the expression's field selector: the ordered
list of `updateConditionExpression` calls it issues for a selected value. -/
def RuleExpressionFieldOnChange (targetValue ruleId conditionId expressionId : String) :
    List UpdateConditionExpressionCall :=
  [ { changedValue := some targetValue
      ruleId := ruleId
      conditionId := conditionId
      expressionId := expressionId
      fieldName := ExpressionFieldTypes.Field
      isUserOnChange := true },
    { changedValue := some ""
      ruleId := ruleId
      conditionId := conditionId
      expressionId := expressionId
      fieldName := ExpressionFieldTypes.Value
      isUserOnChange := true } ]

/-!
## Metadata and resource model

Shapes consumed by the value-input resolver: `ListDataInterface`,
`LinkInterface`, `ExpressionValueInterface`,
`ConditionExpressionMetaInterface` from the meta model, and resource
collections returned by `useGetResourceListOrResourceDetails`.
-/

/-- `ListDataInterface`: a (name, displayName) pair. -/
structure ListDataInterface where
  name : String
  displayName : String
deriving DecidableEq, Repr

/-- `LinkInterface`: a (href, rel) link of a value-shape descriptor. -/
structure LinkInterface where
  href : String
  rel : String
deriving DecidableEq, Repr

/-- The value-shape descriptor of a field (`ExpressionValueInterface`).
Properties a JSON payload may omit are `Option`. -/
structure ExpressionValueInterface where
  inputType : Option String
  values : List ListDataInterface
  links : List LinkInterface
  valueReferenceAttribute : Option String
  valueDisplayAttribute : Option String
deriving DecidableEq, Repr

/-- The `field` object of an expression's metadata entry. -/
structure ExpressionFieldMeta where
  name : String
  displayName : String
deriving DecidableEq, Repr

/-- `ConditionExpressionMetaInterface`: metadata for one selectable field. -/
structure ConditionExpressionMetaInterface where
  field : Option ExpressionFieldMeta
  operators : List ListDataInterface
  value : Option ExpressionValueInterface
deriving DecidableEq, Repr

/-- `ResourceInterface`: an opaque resource record, modelled as an attribute
map; `r.getAttr a` is the JS property access `r[a]` (undefined when absent). -/
structure ResourceInterface where
  attrs : List (String × String)
deriving DecidableEq, Repr

/-- JS property access on a resource record. -/
def ResourceInterface.getAttr (r : ResourceInterface) (a : String) : Option String :=
  r.attrs.lookup a

/-- A fetched resource collection: `totalResults` and `count`, plus the
resource arrays keyed by resource-type name. -/
structure ResourceCollectionInterface where
  totalResults : Nat
  count : Nat
  byType : List (String × List ResourceInterface)
deriving DecidableEq, Repr

/-- Result of `useGetResourceListOrResourceDetails` for one URL: either a
collection (list URLs) or a single resource (detail URLs), plus the
loading/error flags. -/
structure FetchResult where
  collection : Option ResourceCollectionInterface := none
  resource : Option ResourceInterface := none
  isLoading : Bool := false
  error : Bool := false
deriving DecidableEq, Repr

/-- The data-fetch collaborator: what each URL currently resolves to. -/
def FetchEnv : Type := String → FetchResult

/-- JS truthiness of a possibly-undefined string (the empty string is falsy). -/
def jsTruthy (o : Option String) : Bool :=
  match o with
  | some s => s ≠ ""
  | none => false

/-- `resourceType` resolution in `ResourceListSelect`: only the
"application" field is mapped (to "applications"); other fields leave it
undefined. -/
def resourceTypeFor (expressionField : String) : Option String :=
  if expressionField = "application" then some "applications" else none

/-- `fetchedResourcesList[resourceType]`: the resource array of a collection
under a possibly undefined resource-type key; `none` is the JS `undefined`
obtained when the key is unresolved or absent from the collection. -/
def resourcesOfType (l : ResourceCollectionInterface) (rt : Option String) :
    Option (List ResourceInterface) :=
  match rt with
  | some t => l.byType.lookup t
  | none => none

/-!
## `ResourceListSelect` and `ConditionValueInput` render functions

Each returns the rendered variant together with the list of calls the render
itself feeds into `handleExpressionChangeDebounced` (the auto-select of the
first option when the expression value is empty, flagged system-initiated).
`resourceDetails` is the component's local state, `null` on first render.
-/

/-- What `ResourceListSelect` renders.  `typeError` is the outcome of the
unguarded auto-select read `fetchedResourcesList[resourceType][0]?.id`
(line 510): when the resource-type key is unresolved or absent and the
expression value is empty, that index access is `undefined[0]` and throws a
TypeError (the optional chain only protects the `.id` access), so the
component crashes and renders neither variant. -/
inductive ResourceListRender where
  | autocomplete (resourceDetails : Option ResourceInterface)
      (initialResourcesLoadUrl filterBaseResourcesUrl : String)
  | dropdown (items : List ResourceInterface)
  | notFetched
  | typeError
deriving DecidableEq, Repr

/-- Render of `ResourceListSelect` from its props and the list fetch result:
the rendered variant and the render-time debounced auto-select calls.  The
auto-select step is `Option`-valued: `none` models the TypeError thrown by
`fetchedResourcesList[resourceType][0]?.id` when the resource-type array is
`undefined` (then nothing renders and nothing is dispatched); `some` carries
the calls it feeds into `handleExpressionChangeDebounced` (`[0]?.id` on an
empty but present array dispatches an undefined value). -/
def ResourceListSelectRender (env : FetchEnv) (resourceDetails : Option ResourceInterface)
    (ruleId conditionId expressionId expressionField expressionValue
      initialResourcesLoadUrl filterBaseResourcesUrl : String) :
    ResourceListRender × List UpdateConditionExpressionCall :=
  let resourceType : Option String := resourceTypeFor expressionField
  match (env initialResourcesLoadUrl).collection with
  | none => (ResourceListRender.notFetched, [])
  | some fetchedResourcesList =>
      let autoSelect : Option (List UpdateConditionExpressionCall) :=
        if expressionValue = "" then
          (resourcesOfType fetchedResourcesList resourceType).map (fun listed =>
            [ { changedValue := (listed.head?).bind (fun r => r.getAttr "id")
                ruleId := ruleId
                conditionId := conditionId
                expressionId := expressionId
                fieldName := ExpressionFieldTypes.Value
                isUserOnChange := false } ])
        else some []
      match autoSelect with
      | none => (ResourceListRender.typeError, [])
      | some autoCalls =>
          if fetchedResourcesList.totalResults > fetchedResourcesList.count then
            (ResourceListRender.autocomplete resourceDetails
              initialResourcesLoadUrl filterBaseResourcesUrl, autoCalls)
          else
            (ResourceListRender.dropdown
              ((resourcesOfType fetchedResourcesList resourceType).getD []), autoCalls)

/-- What `ConditionValueInput` renders. -/
inductive ValueInputRender where
  | textField
  | optionsSelect (items : List ListDataInterface)
  | resource (r : ResourceListRender)
  | nothing
deriving DecidableEq, Repr

/-- Render of `ConditionValueInput` from its props: the rendered variant and
the render-time debounced auto-select calls (its own, or those of a
delegated `ResourceListSelect`). -/
def ConditionValueInputRender (env : FetchEnv) (resourceDetails : Option ResourceInterface)
    (ruleId conditionId expressionId expressionField expressionValue : String)
    (metaValue : Option ExpressionValueInterface) :
    ValueInputRender × List UpdateConditionExpressionCall :=
  match metaValue with
  | none => (ValueInputRender.nothing, [])
  | some mv =>
      if mv.inputType = some "input" then
        (ValueInputRender.textField, [])
      else if mv.inputType = some "options" then
        if mv.values.length > 1 then
          let autoCalls : List UpdateConditionExpressionCall :=
            if expressionValue = "" then
              [ { changedValue := (mv.values.head?).map (fun v => v.name)
                  ruleId := ruleId
                  conditionId := conditionId
                  expressionId := expressionId
                  fieldName := ExpressionFieldTypes.Value
                  isUserOnChange := false } ]
            else []
          (ValueInputRender.optionsSelect mv.values, autoCalls)
        else if mv.links.length > 1 then
          let initialResourcesLoadUrl : Option String :=
            (mv.links.find? (fun link => link.rel == "values")).map (fun link => link.href)
          let filterBaseResourcesUrl : Option String :=
            (mv.links.find? (fun link => link.rel == "filter")).map (fun link => link.href)
          if jsTruthy initialResourcesLoadUrl && jsTruthy filterBaseResourcesUrl then
            let sub := ResourceListSelectRender env resourceDetails
              ruleId conditionId expressionId expressionField expressionValue
              (initialResourcesLoadUrl.getD "") (filterBaseResourcesUrl.getD "")
            (ValueInputRender.resource sub.1, sub.2)
          else (ValueInputRender.nothing, [])
        else (ValueInputRender.nothing, [])
      else (ValueInputRender.nothing, [])

/-!
## `RuleExpression` rows and the `RuleConditions` tree renderer
-/

/-- One rendered expression row of the tree. -/
structure ExpressionRow where
  ruleId : String
  condition : RuleConditionInterface
  expression : ConditionExpressionInterface
  isConditionExpressionRemovable : Bool
  removeShown : Bool
  operators : List ListDataInterface
  valueInput : ValueInputRender
  renderCalls : List UpdateConditionExpressionCall
deriving DecidableEq, Repr

/-- Render of one `RuleExpression`: looks the field's metadata up with
`find`, computes the value input, and shows the remove affordance exactly
when `isConditionExpressionRemovable && !readonly` holds.  The local
`resourceDetails` state is `null` on first render. -/
def renderRuleExpression (env : FetchEnv) (readonly : Bool)
    (conditionExpressionsMeta : List ConditionExpressionMetaInterface)
    (ruleId : String) (condition : RuleConditionInterface)
    (expression : ConditionExpressionInterface)
    (isConditionExpressionRemovable : Bool) : ExpressionRow :=
  let findMetaValuesAgainst : Option ConditionExpressionMetaInterface :=
    conditionExpressionsMeta.find? (fun m =>
      match m.field with
      | some f => f.name == expression.field
      | none => false)
  let metaValue : Option ExpressionValueInterface :=
    findMetaValuesAgainst.bind (fun m => m.value)
  let vi := ConditionValueInputRender env none ruleId condition.id expression.id
    expression.field expression.value metaValue
  { ruleId := ruleId
    condition := condition
    expression := expression
    isConditionExpressionRemovable := isConditionExpressionRemovable
    removeShown := isConditionExpressionRemovable && !readonly
    operators := (findMetaValuesAgainst.map (fun m => m.operators)).getD []
    valueInput := vi.1
    renderCalls := vi.2 }

/-- Render of `RuleConditions`: one row per expression of each AND condition,
provided the rule's outer adjoining operator is OR; otherwise nothing.  The
removability flag passed to each row is
`condition.expressions.length > 1 || ruleInstance.rules.length > 1`. -/
def renderRuleConditions (env : FetchEnv) (readonly : Bool)
    (conditionExpressionsMeta : List ConditionExpressionMetaInterface)
    (ruleInstance : RuleInterface) : List ExpressionRow :=
  ruleInstance.rules.flatMap (fun condition =>
    if ruleInstance.condition = AdjoiningOperatorTypes.Or then
      if condition.condition = AdjoiningOperatorTypes.And then
        condition.expressions.map (fun expression =>
          renderRuleExpression env readonly conditionExpressionsMeta
            ruleInstance.id condition expression
            (decide (condition.expressions.length > 1) ||
              decide (ruleInstance.rules.length > 1)))
      else []
    else [])

/-- All calls a render of `RuleConditions` feeds into the debounced
dispatcher (the rows' auto-select emissions). -/
def ruleRenderDispatches (env : FetchEnv) (readonly : Bool)
    (conditionExpressionsMeta : List ConditionExpressionMetaInterface)
    (ruleInstance : RuleInterface) : List UpdateConditionExpressionCall :=
  (renderRuleConditions env readonly conditionExpressionsMeta ruleInstance).flatMap
    (fun row => row.renderCalls)

/-!
## `ValueInputAutocomplete`

Option objects, the "more items" sentinel appended when the filtered
collection still has more results than were fetched, and the selection
handler (which ignores the disabled sentinel).
-/

/-- `ValueInputAutocompleteOptionsInterface` entries, plus the `isDisabled`
marker that only the sentinel sets (absent, hence false, on mapped
resources).  `id`/`label` are `Option` because they are read off resource
attributes that may be undefined. -/
structure ValueInputAutocompleteOption where
  id : Option String
  label : Option String
  isDisabled : Bool := false
deriving DecidableEq, Repr

/-- The non-selectable "more items" sentinel entry (its label is the
`rules:fields.autocomplete.moreItemsMessage` translation). -/
def moreItemsOption : ValueInputAutocompleteOption :=
  { id := some "more-items"
    label := some "rules:fields.autocomplete.moreItemsMessage"
    isDisabled := true }

/-- `hasMoreItems`: whether the filtered collection reports more total
results than fetched (`filteredResources?.totalResults > filteredResources?.count`;
an absent collection compares as false). -/
def hasMoreItems (filteredResources : Option ResourceCollectionInterface) : Bool :=
  match filteredResources with
  | some l => decide (l.totalResults > l.count)
  | none => false

/-- Mapping of fetched resources to autocomplete options
(`id: resource[valueReferenceAttribute], label: resource[valueDisplayAttribute]`). -/
def optionsFromResources (resources : List ResourceInterface)
    (valueReferenceAttribute valueDisplayAttribute : String) :
    List ValueInputAutocompleteOption :=
  resources.map (fun r =>
    { id := r.getAttr valueReferenceAttribute
      label := r.getAttr valueDisplayAttribute })

/-- The options prop of the autocomplete: the current options, with the
sentinel appended when `hasMoreItems` holds. -/
def ValueInputAutocompleteOptions (options : List ValueInputAutocompleteOption)
    (hasMore : Bool) : List ValueInputAutocompleteOption :=
  if hasMore then options ++ [moreItemsOption] else options

/-- The autocomplete's `onChange` handler: the calls it feeds into
`handleExpressionChangeDebounced` for a selected option (`none` models a
cleared selection).  A disabled option is ignored before any dispatch. -/
def ValueInputAutocompleteOnChange (value : Option ValueInputAutocompleteOption)
    (ruleId conditionId expressionId : String) : List UpdateConditionExpressionCall :=
  match value with
  | none => []
  | some v =>
      if v.isDisabled then []
      else
        [ { changedValue := v.id
            ruleId := ruleId
            conditionId := conditionId
            expressionId := expressionId
            fieldName := ExpressionFieldTypes.Value
            isUserOnChange := true } ]

/-!
## `ResourceListSelect` resource-details effect

The effect over `[isResourceDetailsLoading, resourceDetailsError]`: once the
detail fetch is no longer loading, an error sets the "resource missing"
flag and clears the local details state; otherwise the details state is set
to the fetched resource.  The effect issues no `updateConditionExpression`
call on any path.
-/

/-- Local state updates performed by the resource-details effect
(`some x` means the setter was invoked with `x`). -/
structure ResourceDetailsEffect where
  setIsResourceMissing : Option Bool
  setResourceDetails : Option (Option ResourceInterface)
deriving DecidableEq, Repr

/-- The resource-details effect of `ResourceListSelect`. -/
def ResourceListSelectDetailsEffect (isResourceDetailsLoading resourceDetailsError : Bool)
    (resourcesDetails : Option ResourceInterface) : ResourceDetailsEffect :=
  if !isResourceDetailsLoading then
    if resourceDetailsError then
      { setIsResourceMissing := some true, setResourceDetails := some none }
    else
      { setIsResourceMissing := none, setResourceDetails := some resourcesDetails }
  else
    { setIsResourceMissing := none, setResourceDetails := none }

/-!
## Application-template configuration aggregator

`getApplicationTemplatesConfig` builds, for groups and for templates,
`values(merge(keyBy(builtIn, "id"), keyBy(extension, "id")))` with lodash.
`keyBy` produces an object keyed by each entry's `id` (later duplicates
overwrite, keeping the key's position); `merge` deep-merges the extension
object into the built-in object, where defined extension properties
override and new keys are appended; `values` lists the merged entries.
Entry properties a config object may omit are `Option`; `merge` skips
undefined source properties.  The nested `resource`/`wizardHelp` payloads
are opaque here, so overriding them is modelled whole.
-/

/-- `TemplateConfigInterface` entries: an id plus properties an extension
entry may supply or omit. -/
structure TemplateConfigInterface where
  id : String
  enabled : Option Bool := none
  resource : Option String := none
  wizardHelp : Option String := none
deriving DecidableEq, Repr

/-- Insertion into a JS object keyed by id: an existing key keeps its
position and gets the new value, a new key is appended. -/
def keyByIdInsert (acc : List (String × TemplateConfigInterface))
    (e : TemplateConfigInterface) : List (String × TemplateConfigInterface) :=
  if (acc.lookup e.id).isSome then
    acc.map (fun p => if p.1 = e.id then (e.id, e) else p)
  else
    acc ++ [(e.id, e)]

/-- lodash `keyBy(list, "id")`: the entries as an id-keyed object. -/
def keyById (l : List TemplateConfigInterface) :
    List (String × TemplateConfigInterface) :=
  l.foldl keyByIdInsert []

/-- lodash `merge` of two entries sharing an id: each property defined on
the extension entry overrides the built-in's, undefined ones are kept. -/
def mergeTemplateConfig (dst src : TemplateConfigInterface) : TemplateConfigInterface :=
  { id := src.id
    enabled := match src.enabled with
      | some b => some b
      | none => dst.enabled
    resource := match src.resource with
      | some r => some r
      | none => dst.resource
    wizardHelp := match src.wizardHelp with
      | some w => some w
      | none => dst.wizardHelp }

/-- The merged value an id-keyed destination entry receives: merged with the
source object's entry under the same key when present, kept otherwise. -/
def mergeByIdValue (src : List (String × TemplateConfigInterface)) (k : String)
    (v : TemplateConfigInterface) : TemplateConfigInterface :=
  match src.lookup k with
  | some s => mergeTemplateConfig v s
  | none => v

/-- lodash `merge` of the two id-keyed objects: keys of `dst` keep their
position and are merged with a matching `src` entry when present; keys only
in `src` are appended in order. -/
def mergeById (dst src : List (String × TemplateConfigInterface)) :
    List (String × TemplateConfigInterface) :=
  dst.map (fun p => (p.1, mergeByIdValue src p.1 p.2)) ++
    src.filter (fun q => (dst.lookup q.1).isNone)

/-- `values(merge(keyBy(builtIn, "id"), keyBy(extension, "id")))`. -/
def mergeTemplateConfigs (builtIn extension : List TemplateConfigInterface) :
    List TemplateConfigInterface :=
  (mergeById (keyById builtIn) (keyById extension)).map (fun p => p.2)

/-- `ApplicationTemplatesConfigInterface`: the aggregated groups and
templates. -/
structure ApplicationTemplatesConfigInterface where
  groups : List TemplateConfigInterface
  templates : List TemplateConfigInterface
deriving DecidableEq, Repr

/-- `getApplicationTemplatesConfig`, parameterised by the built-in entries
(statically imported JSON in the source) and the extension-provided entries
(from the `ExtensionsManager`). -/
def getApplicationTemplatesConfig
    (builtInGroups extensionGroups builtInTemplates extensionTemplates :
      List TemplateConfigInterface) : ApplicationTemplatesConfigInterface :=
  { groups := mergeTemplateConfigs builtInGroups extensionGroups
    templates := mergeTemplateConfigs builtInTemplates extensionTemplates }

/-- The last entry of a config list carrying a given id (what `keyBy`
retains for that id). -/
def lastById (l : List TemplateConfigInterface) (i : String) :
    Option TemplateConfigInterface :=
  l.reverse.find? (fun e => e.id == i)

/-- The entry a merged configuration is expected to hold for an id: the
merge of the last built-in and last extension entries with that id, or
whichever side has it. -/
def combineById (builtIn extension : List TemplateConfigInterface) (i : String) :
    Option TemplateConfigInterface :=
  match lastById builtIn i, lastById extension i with
  | some a, some b => some (mergeTemplateConfig a b)
  | some a, none => some a
  | none, some b => some b
  | none, none => none

/-- First entry of a config list with a given id. -/
def findById (l : List TemplateConfigInterface) (i : String) :
    Option TemplateConfigInterface :=
  l.find? (fun e => e.id == i)

/-- Sample debounced edit to expression `expr1` (free-text value "x"). -/
def sampleCallA : UpdateConditionExpressionCall :=
  { changedValue := some "x"
    ruleId := "rule1"
    conditionId := "cond1"
    expressionId := "expr1"
    fieldName := ExpressionFieldTypes.Value
    isUserOnChange := true }

/-- Sample debounced edit to a different expression `expr2` (value "y"). -/
def sampleCallB : UpdateConditionExpressionCall :=
  { changedValue := some "y"
    ruleId := "rule1"
    conditionId := "cond1"
    expressionId := "expr2"
    fieldName := ExpressionFieldTypes.Value
    isUserOnChange := true }

/-!
## Sample data for witnesses and counterexamples
-/

/-- A fetch environment with nothing loaded. -/
def emptyFetchEnv : FetchEnv := fun _ => {}

/-- Sample expression on the "application" field. -/
def exprA : ConditionExpressionInterface :=
  { id := "expr1", field := "application", operator := "equals", value := "app1" }

/-- A second sample expression. -/
def exprB : ConditionExpressionInterface :=
  { id := "expr2", field := "application", operator := "equals", value := "app2" }

/-- A condition holding the single expression `exprA`. -/
def condOne : RuleConditionInterface :=
  { id := "cond1", condition := AdjoiningOperatorTypes.And, expressions := [exprA] }

/-- A condition holding the single expression `exprB`. -/
def condTwo : RuleConditionInterface :=
  { id := "cond2", condition := AdjoiningOperatorTypes.And, expressions := [exprB] }

/-- An OR-rooted rule with two conditions of one expression each. -/
def ruleTwoConds : RuleInterface :=
  { id := "rule1", condition := AdjoiningOperatorTypes.Or, rules := [condOne, condTwo] }

/-- An AND-rooted (unsupported) rule with the same two conditions. -/
def ruleAndRoot : RuleInterface :=
  { id := "rule1", condition := AdjoiningOperatorTypes.And, rules := [condOne, condTwo] }

/-!
## Claim theorems
-/

/-- C1, counterexample.  The claim says the debounce is keyed per expression
instance, so that a later edit to one expression never supersedes a pending
debounced edit of a different expression.  In the source a single lodash
debounce instance (created in the `RuleConditions` body) is shared by every
expression of the rule: with an edit to `expr1` at time 0 and an edit to
`expr2` at time 100, the single resulting dispatch carries `expr2`'s value
and `expr1`'s pending edit is dropped. -/
theorem C1_counterexample :
    handleExpressionChangeDebounced [(0, sampleCallA), (100, sampleCallB)] =
      [(400, sampleCallB)] ∧
    sampleCallA.expressionId ≠ sampleCallB.expressionId := by
  constructor
  · rfl
  · decide

/-- C1, amended.  Free-text edits are debounced with a fixed 300-unit
trailing quiescence window, but by one debounce instance shared across all
expressions of the rule component: any three calls each arriving within 300
units of the previous one produce exactly one dispatch to
`updateConditionExpression`, carrying the last call's arguments (whichever
expression each call targeted). -/
theorem C1_shared_debounce_three_edits_one_dispatch
    (t1 t2 t3 : Nat) (a1 a2 a3 : UpdateConditionExpressionCall)
    (h12 : t2 < t1 + 300) (h23 : t3 < t2 + 300) :
    handleExpressionChangeDebounced [(t1, a1), (t2, a2), (t3, a3)] =
      [(t3 + 300, a3)] := by
  have n12 : ¬ (t1 + 300 ≤ t2) := Nat.not_le.mpr h12
  have n23 : ¬ (t2 + 300 ≤ t3) := Nat.not_le.mpr h23
  simp [handleExpressionChangeDebounced, debounceRun, debounceRunAux, n12, n23]

/-- C1, witness: three edits at times 0, 100, 200 yield the single dispatch
of the last value at time 500. -/
theorem C1_shared_debounce_three_edits_one_dispatch_witness :
    handleExpressionChangeDebounced
      [(0, sampleCallA), (100, sampleCallA), (200, sampleCallB)] =
      [(200 + 300, sampleCallB)] :=
  C1_shared_debounce_three_edits_one_dispatch 0 100 200
    sampleCallA sampleCallA sampleCallB (by decide) (by decide)

/-- C3: selecting a field issues exactly two sequential dispatches to
`updateConditionExpression`: first the field update with the selected value,
then an unconditional reset of the expression's value to the empty string,
both user-initiated. -/
theorem C3_field_select_updates_then_clears_value
    (targetValue ruleId conditionId expressionId : String) :
    (RuleExpressionFieldOnChange targetValue ruleId conditionId expressionId).length = 2 ∧
    (RuleExpressionFieldOnChange targetValue ruleId conditionId expressionId).head? =
      some { changedValue := some targetValue
             ruleId := ruleId
             conditionId := conditionId
             expressionId := expressionId
             fieldName := ExpressionFieldTypes.Field
             isUserOnChange := true } ∧
    (RuleExpressionFieldOnChange targetValue ruleId conditionId expressionId).getLast? =
      some { changedValue := some ""
             ruleId := ruleId
             conditionId := conditionId
             expressionId := expressionId
             fieldName := ExpressionFieldTypes.Value
             isUserOnChange := true } :=
  ⟨rfl, rfl, rfl⟩

/-- C4: a rule whose outer adjoining operator is not OR renders no
expression row and issues no render-time dispatch. -/
theorem C4_non_or_rule_renders_empty (env : FetchEnv) (readonly : Bool)
    (conditionExpressionsMeta : List ConditionExpressionMetaInterface)
    (ruleInstance : RuleInterface)
    (h : ruleInstance.condition ≠ AdjoiningOperatorTypes.Or) :
    renderRuleConditions env readonly conditionExpressionsMeta ruleInstance = [] ∧
    ruleRenderDispatches env readonly conditionExpressionsMeta ruleInstance = [] := by
  have h1 : renderRuleConditions env readonly conditionExpressionsMeta ruleInstance = [] := by
    simp [renderRuleConditions, h]
  exact ⟨h1, by simp [ruleRenderDispatches, h1]⟩

/-- C4, witness: the AND-rooted sample rule renders empty and dispatches
nothing. -/
theorem C4_non_or_rule_renders_empty_witness :
    renderRuleConditions emptyFetchEnv false [] ruleAndRoot = [] ∧
    ruleRenderDispatches emptyFetchEnv false [] ruleAndRoot = [] :=
  C4_non_or_rule_renders_empty emptyFetchEnv false [] ruleAndRoot (by decide)

/-- C2, counterexample.  The claim offers the remove affordance if and only
if the owning condition has more than one expression or the rule has more
than one condition.  With the `readonly` prop set, the source additionally
requires `!readonly`: in a readonly render of a rule with two conditions of
one expression each, every row satisfies the removability count condition
yet no remove affordance is shown. -/
theorem C2_counterexample :
    (renderRuleConditions emptyFetchEnv true [] ruleTwoConds).map
      (fun row => row.isConditionExpressionRemovable) = [true, true] ∧
    (renderRuleConditions emptyFetchEnv true [] ruleTwoConds).map
      (fun row => row.removeShown) = [false, false] ∧
    ruleTwoConds.rules.length > 1 := by
  refine ⟨rfl, rfl, by decide⟩

/-- C2, amended.  In a non-readonly render, the remove affordance is shown
on a rendered expression row if and only if the owning condition has more
than one expression or the rule has more than one condition; with the
readonly flag set it is additionally suppressed. -/
theorem C2_remove_affordance_iff (env : FetchEnv)
    (conditionExpressionsMeta : List ConditionExpressionMetaInterface)
    (ruleInstance : RuleInterface) (row : ExpressionRow)
    (hmem : row ∈ renderRuleConditions env false conditionExpressionsMeta ruleInstance) :
    (row.removeShown = true ↔
      (row.condition.expressions.length > 1 ∨ ruleInstance.rules.length > 1)) := by
  simp only [renderRuleConditions, List.mem_flatMap] at hmem
  obtain ⟨condition, hc, hrow⟩ := hmem
  by_cases hOr : ruleInstance.condition = AdjoiningOperatorTypes.Or
  · rw [if_pos hOr] at hrow
    by_cases hAnd : condition.condition = AdjoiningOperatorTypes.And
    · rw [if_pos hAnd] at hrow
      simp only [List.mem_map] at hrow
      obtain ⟨expression, he, heq⟩ := hrow
      subst heq
      simp [renderRuleExpression]
    · rw [if_neg hAnd] at hrow
      simp at hrow
  · rw [if_neg hOr] at hrow
    simp at hrow

/-- The first row of a non-readonly render of `ruleTwoConds`. -/
def sampleRowEditable : ExpressionRow :=
  renderRuleExpression emptyFetchEnv false [] "rule1" condOne exprA
    (decide (condOne.expressions.length > 1) || decide (ruleTwoConds.rules.length > 1))

/-- C2, witness: for the two-condition sample rule, the first rendered row
shows the remove affordance exactly because the rule has more than one
condition. -/
theorem C2_remove_affordance_iff_witness :
    sampleRowEditable.removeShown = true ↔
      (sampleRowEditable.condition.expressions.length > 1 ∨
        ruleTwoConds.rules.length > 1) :=
  C2_remove_affordance_iff emptyFetchEnv [] ruleTwoConds sampleRowEditable (by decide)

/-- C10: with the readonly flag set, no rendered expression row shows the
remove affordance, whatever the expression and condition counts are. -/
theorem C10_readonly_hides_remove (env : FetchEnv)
    (conditionExpressionsMeta : List ConditionExpressionMetaInterface)
    (ruleInstance : RuleInterface) (row : ExpressionRow)
    (hmem : row ∈ renderRuleConditions env true conditionExpressionsMeta ruleInstance) :
    row.removeShown = false := by
  simp only [renderRuleConditions, List.mem_flatMap] at hmem
  obtain ⟨condition, hc, hrow⟩ := hmem
  by_cases hOr : ruleInstance.condition = AdjoiningOperatorTypes.Or
  · rw [if_pos hOr] at hrow
    by_cases hAnd : condition.condition = AdjoiningOperatorTypes.And
    · rw [if_pos hAnd] at hrow
      simp only [List.mem_map] at hrow
      obtain ⟨expression, he, heq⟩ := hrow
      subst heq
      simp [renderRuleExpression]
    · rw [if_neg hAnd] at hrow
      simp at hrow
  · rw [if_neg hOr] at hrow
    simp at hrow

/-- The first row of a readonly render of `ruleTwoConds` (its removability
count condition holds, yet the affordance is hidden). -/
def sampleRowReadonly : ExpressionRow :=
  renderRuleExpression emptyFetchEnv true [] "rule1" condOne exprA
    (decide (condOne.expressions.length > 1) || decide (ruleTwoConds.rules.length > 1))

/-- C10, witness: in a readonly render of the two-condition sample rule the
first row hides the remove affordance. -/
theorem C10_readonly_hides_remove_witness :
    sampleRowReadonly.removeShown = false :=
  C10_readonly_hides_remove emptyFetchEnv [] ruleTwoConds sampleRowReadonly (by decide)

/-- C5: for a fixed-list value-shape with more than one option and an empty
expression value, the value input renders the options dropdown and its
render feeds exactly one call into the debounced dispatcher, carrying the
first option's name with the user-initiated flag set to false. -/
theorem C5_options_auto_select_first (env : FetchEnv)
    (resourceDetails : Option ResourceInterface)
    (ruleId conditionId expressionId expressionField : String)
    (mv : ExpressionValueInterface) (v0 v1 : ListDataInterface)
    (rest : List ListDataInterface)
    (hInput : mv.inputType = some "options")
    (hv : mv.values = v0 :: v1 :: rest) :
    ConditionValueInputRender env resourceDetails ruleId conditionId expressionId
        expressionField "" (some mv) =
      (ValueInputRender.optionsSelect mv.values,
        [ { changedValue := some v0.name
            ruleId := ruleId
            conditionId := conditionId
            expressionId := expressionId
            fieldName := ExpressionFieldTypes.Value
            isUserOnChange := false } ]) := by
  simp [ConditionValueInputRender, hInput, hv]

/-- A fixed-list value-shape with exactly two options. -/
def sampleOptionsMeta : ExpressionValueInterface :=
  { inputType := some "options"
    values := [ { name := "opt1", displayName := "Option 1" },
                { name := "opt2", displayName := "Option 2" } ]
    links := []
    valueReferenceAttribute := none
    valueDisplayAttribute := none }

/-- C5, witness: the two-option sample meta with an empty value auto-feeds
the first option's name, system-initiated. -/
theorem C5_options_auto_select_first_witness :
    ConditionValueInputRender emptyFetchEnv none "rule1" "cond1" "expr1"
        "grant" "" (some sampleOptionsMeta) =
      (ValueInputRender.optionsSelect sampleOptionsMeta.values,
        [ { changedValue := some "opt1"
            ruleId := "rule1"
            conditionId := "cond1"
            expressionId := "expr1"
            fieldName := ExpressionFieldTypes.Value
            isUserOnChange := false } ]) :=
  C5_options_auto_select_first emptyFetchEnv none "rule1" "cond1" "expr1" "grant"
    sampleOptionsMeta { name := "opt1", displayName := "Option 1" }
    { name := "opt2", displayName := "Option 2" } [] rfl rfl

/-- A collection whose total exceeds the fetched count (pagination needed). -/
def samplePagedCollection : ResourceCollectionInterface :=
  { totalResults := 5
    count := 2
    byType := [("applications",
      [ { attrs := [("id", "app1"), ("name", "App One")] },
        { attrs := [("id", "app2"), ("name", "App Two")] } ])] }

/-- A fetch environment resolving the sample list URL to the paged sample
collection. -/
def samplePagedEnv : FetchEnv := fun url =>
  if url = "/applications/list" then { collection := some samplePagedCollection } else {}

/-- The fetched resources of the grant sample collection. -/
def sampleGrantResources : List ResourceInterface :=
  [ { attrs := [("id", "g1"), ("name", "Grant One")] } ]

/-- A fully fetched collection (totalResults = count) of a resource type the
component does not resolve: its array is stored under "grants". -/
def sampleGrantCollection : ResourceCollectionInterface :=
  { totalResults := 1
    count := 1
    byType := [("grants", sampleGrantResources)] }

/-- A fetch environment resolving the grant list URL to the grant sample
collection. -/
def sampleGrantEnv : FetchEnv := fun url =>
  if url = "/grants/list" then { collection := some sampleGrantCollection } else {}

/-- C6, counterexample.  The claim promises that once the collection is
fetched with `totalResults` not exceeding `count`, the plain dropdown of all
fetched resources renders.  For a resource-reference shape on the "grant"
field with an empty stored value, `resourceType` stays undefined (only
"application" is mapped), so the auto-select read
`fetchedResourcesList[resourceType][0]?.id` is `undefined[0]` and throws a
TypeError before either variant can be returned: neither the dropdown nor
the autocomplete renders. -/
theorem C6_counterexample :
    (ResourceListSelectRender sampleGrantEnv none "rule1" "cond1" "expr1"
        "grant" "" "/grants/list" "/grants/filter").1 =
      ResourceListRender.typeError ∧
    (ResourceListSelectRender sampleGrantEnv none "rule1" "cond1" "expr1"
        "grant" "" "/grants/list" "/grants/filter").1 ≠
      ResourceListRender.dropdown sampleGrantResources ∧
    ¬ sampleGrantCollection.totalResults > sampleGrantCollection.count := by
  refine ⟨rfl, by decide, by decide⟩

/-- C6, amended: once the initial resource collection is fetched, and
provided the auto-select read cannot throw (the stored value is non-empty,
or the resolved resource-type array is present in the collection),
`ResourceListSelect` renders the searchable autocomplete variant when the
collection's `totalResults` exceeds its `count`, and otherwise the plain
dropdown of the fetched resource array; with an empty stored value and an
unresolved or absent resource-type key the unguarded first-element read
throws instead and neither variant renders. -/
theorem C6_resource_variant_by_pagination (env : FetchEnv)
    (resourceDetails : Option ResourceInterface)
    (ruleId conditionId expressionId expressionField expressionValue
      initialResourcesLoadUrl filterBaseResourcesUrl : String)
    (l : ResourceCollectionInterface)
    (hFetch : (env initialResourcesLoadUrl).collection = some l)
    (hSafe : expressionValue = "" →
      (resourcesOfType l (resourceTypeFor expressionField)).isSome) :
    (ResourceListSelectRender env resourceDetails ruleId conditionId expressionId
        expressionField expressionValue initialResourcesLoadUrl
        filterBaseResourcesUrl).1 =
      if l.totalResults > l.count then
        ResourceListRender.autocomplete resourceDetails initialResourcesLoadUrl
          filterBaseResourcesUrl
      else
        ResourceListRender.dropdown
          ((resourcesOfType l (resourceTypeFor expressionField)).getD []) := by
  by_cases hv : expressionValue = ""
  · obtain ⟨listed, hres⟩ := Option.isSome_iff_exists.mp (hSafe hv)
    simp only [ResourceListSelectRender, hFetch, if_pos hv, hres, Option.map_some']
    by_cases h : l.totalResults > l.count
    · rw [if_pos h, if_pos h]
    · rw [if_neg h, if_neg h]
  · simp only [ResourceListSelectRender, hFetch, if_neg hv]
    by_cases h : l.totalResults > l.count
    · rw [if_pos h, if_pos h]
    · rw [if_neg h, if_neg h]

/-- C6, witness: with the paged sample collection fetched under the
"application" field and an empty stored value, the auto-select read is safe
and the autocomplete variant is rendered. -/
theorem C6_resource_variant_by_pagination_witness :
    (ResourceListSelectRender samplePagedEnv none "rule1" "cond1" "expr1"
        "application" "" "/applications/list" "/applications/filter").1 =
      if samplePagedCollection.totalResults > samplePagedCollection.count then
        ResourceListRender.autocomplete none "/applications/list" "/applications/filter"
      else
        ResourceListRender.dropdown
          ((resourcesOfType samplePagedCollection (resourceTypeFor "application")).getD []) :=
  C6_resource_variant_by_pagination samplePagedEnv none "rule1" "cond1" "expr1"
    "application" "" "/applications/list" "/applications/filter"
    samplePagedCollection (by decide) (by decide)

/-- C7: a resource-detail fetch that completes with an error makes the
effect set the "resource missing" flag to true (and clear only the local
details state), and for a non-empty stored expression value the component's
render feeds no call into the dispatcher, so the stored value is left
untouched. -/
theorem C7_detail_error_sets_missing_and_keeps_value (env : FetchEnv)
    (resourceDetails resourcesDetails : Option ResourceInterface)
    (ruleId conditionId expressionId expressionField expressionValue
      initialResourcesLoadUrl filterBaseResourcesUrl : String)
    (hVal : expressionValue ≠ "") :
    ResourceListSelectDetailsEffect false true resourcesDetails =
      { setIsResourceMissing := some true, setResourceDetails := some none } ∧
    (ResourceListSelectRender env resourceDetails ruleId conditionId expressionId
        expressionField expressionValue initialResourcesLoadUrl
        filterBaseResourcesUrl).2 = [] := by
  refine ⟨rfl, ?_⟩
  cases hc : (env initialResourcesLoadUrl).collection with
  | none => simp [ResourceListSelectRender, hc]
  | some l =>
      simp only [ResourceListSelectRender, hc, if_neg hVal]
      by_cases h : l.totalResults > l.count
      · rw [if_pos h]
      · rw [if_neg h]

/-- C7, witness: with a non-empty stored value "app42", the errored detail
fetch raises the missing flag and the render dispatches nothing. -/
theorem C7_detail_error_sets_missing_and_keeps_value_witness :
    ResourceListSelectDetailsEffect false true none =
      { setIsResourceMissing := some true, setResourceDetails := some none } ∧
    (ResourceListSelectRender samplePagedEnv none "rule1" "cond1" "expr1"
        "application" "app42" "/applications/list" "/applications/filter").2 = [] :=
  C7_detail_error_sets_missing_and_keeps_value samplePagedEnv none none
    "rule1" "cond1" "expr1" "application" "app42" "/applications/list"
    "/applications/filter" (by decide)

/-- C8: whenever the filtered collection's `totalResults` exceeds its
`count`, the autocomplete's options list is the current options with the
non-selectable "more items" sentinel appended, and selecting that sentinel
dispatches nothing. -/
theorem C8_more_items_sentinel (filteredResources : Option ResourceCollectionInterface)
    (l : ResourceCollectionInterface)
    (options : List ValueInputAutocompleteOption)
    (ruleId conditionId expressionId : String)
    (hf : filteredResources = some l)
    (hMore : l.totalResults > l.count) :
    ValueInputAutocompleteOptions options (hasMoreItems filteredResources) =
      options ++ [moreItemsOption] ∧
    moreItemsOption.isDisabled = true ∧
    ValueInputAutocompleteOnChange (some moreItemsOption) ruleId conditionId
      expressionId = [] := by
  subst hf
  refine ⟨?_, rfl, rfl⟩
  simp [ValueInputAutocompleteOptions, hasMoreItems, hMore]

/-- C8, witness: with the paged sample collection as filter result, the
sentinel is appended to an empty options list and selecting it dispatches
nothing. -/
theorem C8_more_items_sentinel_witness :
    ValueInputAutocompleteOptions [] (hasMoreItems (some samplePagedCollection)) =
      [] ++ [moreItemsOption] ∧
    moreItemsOption.isDisabled = true ∧
    ValueInputAutocompleteOnChange (some moreItemsOption) "rule1" "cond1"
      "expr1" = [] :=
  C8_more_items_sentinel (some samplePagedCollection) samplePagedCollection []
    "rule1" "cond1" "expr1" rfl (by decide)

/-!
## Lemmas about the id-keyed merge
-/

/-- In-place replacement of the entry under `e.id` leaves lookups at other
keys unchanged. -/
theorem lookup_replaceById_ne (acc : List (String × TemplateConfigInterface))
    (e : TemplateConfigInterface) (i : String) (h : i ≠ e.id) :
    (acc.map (fun p => if p.1 = e.id then (e.id, e) else p)).lookup i =
      acc.lookup i := by
  induction acc with
  | nil => rfl
  | cons p rest ih =>
      simp only [List.map_cons]
      by_cases hpe : p.1 = e.id
      · have h2 : i ≠ p.1 := fun hip => h (hip.trans hpe)
        rw [if_pos hpe]
        rw [List.lookup_cons, List.lookup_cons]
        simp [beq_eq_false_iff_ne.mpr h, beq_eq_false_iff_ne.mpr h2, ih]
      · rw [if_neg hpe]
        rw [List.lookup_cons, List.lookup_cons]
        cases hip : (i == p.1) <;> simp [ih]

/-- If the key `e.id` is present, the in-place replacement makes its lookup
yield `e`. -/
theorem lookup_replaceById_eq (acc : List (String × TemplateConfigInterface))
    (e : TemplateConfigInterface)
    (h : (acc.lookup e.id).isSome) :
    (acc.map (fun p => if p.1 = e.id then (e.id, e) else p)).lookup e.id =
      some e := by
  induction acc with
  | nil => simp at h
  | cons p rest ih =>
      simp only [List.map_cons]
      by_cases hpe : p.1 = e.id
      · rw [if_pos hpe]
        rw [List.lookup_cons]
        simp
      · rw [if_neg hpe]
        rw [List.lookup_cons] at h ⊢
        have hne : (e.id == p.1) = false := beq_eq_false_iff_ne.mpr (fun hep => hpe hep.symm)
        rw [hne] at h ⊢
        exact ih h

/-- Lookup after a keyed insertion: the inserted id now maps to the new
entry, all other ids are untouched. -/
theorem lookup_keyByIdInsert (acc : List (String × TemplateConfigInterface))
    (e : TemplateConfigInterface) (i : String) :
    (keyByIdInsert acc e).lookup i =
      if i = e.id then some e else acc.lookup i := by
  unfold keyByIdInsert
  by_cases hpres : (acc.lookup e.id).isSome
  · rw [if_pos hpres]
    by_cases hie : i = e.id
    · rw [if_pos hie, hie]
      exact lookup_replaceById_eq acc e hpres
    · rw [if_neg hie]
      exact lookup_replaceById_ne acc e i hie
  · rw [if_neg hpres]
    rw [List.lookup_append]
    by_cases hie : i = e.id
    · rw [if_pos hie]
      have hnone : acc.lookup i = none := by
        rw [hie]
        exact Option.not_isSome_iff_eq_none.mp hpres
      rw [hnone]
      simp [List.lookup_cons, hie]
    · rw [if_neg hie]
      have : ((i, e) : String × TemplateConfigInterface).1 = i := rfl
      rw [List.lookup_cons]
      rw [beq_eq_false_iff_ne.mpr hie]
      cases acc.lookup i <;> rfl

/-- Unfolding `lastById` over a cons cell: the tail's last occurrence wins,
the head only counts when the tail has none. -/
theorem lastById_cons (e : TemplateConfigInterface)
    (l : List TemplateConfigInterface) (i : String) :
    lastById (e :: l) i =
      match lastById l i with
      | some x => some x
      | none => if e.id = i then some e else none := by
  unfold lastById
  rw [List.reverse_cons, List.find?_append]
  cases h : l.reverse.find? (fun x => x.id == i) with
  | none =>
      simp only [Option.or]
      rw [List.find?]
      by_cases hei : e.id = i
      · rw [if_pos hei]
        simp [hei]
      · rw [if_neg hei]
        simp [beq_eq_false_iff_ne.mpr hei]
  | some x => rfl

/-- Lookup in the object `keyBy` builds over an accumulator: the last entry
of the list with the id wins, the accumulator answers otherwise. -/
theorem lookup_keyById_foldl (l : List TemplateConfigInterface)
    (acc : List (String × TemplateConfigInterface)) (i : String) :
    (l.foldl keyByIdInsert acc).lookup i =
      match lastById l i with
      | some x => some x
      | none => acc.lookup i := by
  induction l generalizing acc with
  | nil => rfl
  | cons e rest ih =>
      rw [List.foldl_cons, ih (keyByIdInsert acc e), lastById_cons]
      cases h : lastById rest i with
      | some x => rfl
      | none =>
          rw [lookup_keyByIdInsert]
          by_cases hie : i = e.id
          · rw [if_pos hie, if_pos hie.symm]
          · rw [if_neg hie, if_neg (fun hei => hie hei.symm)]

/-- Lookup in `keyBy(list, "id")` is the list's last entry with that id. -/
theorem lookup_keyById (l : List TemplateConfigInterface) (i : String) :
    (keyById l).lookup i = lastById l i := by
  rw [keyById, lookup_keyById_foldl]
  cases lastById l i <;> rfl

/-- Keyed insertion keeps the existing keys, appending the new id only when
it was absent. -/
theorem keys_keyByIdInsert (acc : List (String × TemplateConfigInterface))
    (e : TemplateConfigInterface) :
    (keyByIdInsert acc e).map Prod.fst =
      if (acc.lookup e.id).isSome then acc.map Prod.fst
      else acc.map Prod.fst ++ [e.id] := by
  unfold keyByIdInsert
  by_cases hpres : (acc.lookup e.id).isSome
  · rw [if_pos hpres, if_pos hpres, List.map_map]
    refine List.map_congr_left ?_
    intro p hp
    by_cases hpe : p.1 = e.id
    · simp [hpe]
    · simp [hpe]
  · rw [if_neg hpres, if_neg hpres, List.map_append]
    rfl

/-- Keyed insertion preserves distinctness of the keys. -/
theorem keysNodup_keyByIdInsert (acc : List (String × TemplateConfigInterface))
    (e : TemplateConfigInterface) (h : (acc.map Prod.fst).Nodup) :
    ((keyByIdInsert acc e).map Prod.fst).Nodup := by
  rw [keys_keyByIdInsert]
  by_cases hpres : (acc.lookup e.id).isSome
  · rw [if_pos hpres]
    exact h
  · rw [if_neg hpres]
    rw [List.nodup_append]
    refine ⟨h, List.nodup_singleton e.id, ?_⟩
    intro a ha hb
    rw [List.mem_singleton] at hb
    subst hb
    have hnone : acc.lookup e.id = none := Option.not_isSome_iff_eq_none.mp hpres
    rw [List.lookup_eq_none_iff] at hnone
    obtain ⟨p, hp, hfst⟩ := List.mem_map.mp ha
    have := hnone p hp
    rw [hfst] at this
    simp at this

/-- The keys of `keyBy(list, "id")` are distinct. -/
theorem keysNodup_keyById (l : List TemplateConfigInterface) :
    ((keyById l).map Prod.fst).Nodup := by
  rw [keyById]
  have haux : ∀ acc : List (String × TemplateConfigInterface),
      (acc.map Prod.fst).Nodup → ((l.foldl keyByIdInsert acc).map Prod.fst).Nodup := by
    induction l with
    | nil => intro acc h; exact h
    | cons e rest ih =>
        intro acc h
        rw [List.foldl_cons]
        exact ih (keyByIdInsert acc e) (keysNodup_keyByIdInsert acc e h)
  exact haux [] List.nodup_nil

/-- Keyed insertion preserves the invariant that every stored entry's id is
its key. -/
theorem idInv_keyByIdInsert (acc : List (String × TemplateConfigInterface))
    (e : TemplateConfigInterface) (h : ∀ p ∈ acc, p.2.id = p.1) :
    ∀ p ∈ keyByIdInsert acc e, p.2.id = p.1 := by
  intro p hp
  unfold keyByIdInsert at hp
  by_cases hpres : (acc.lookup e.id).isSome
  · rw [if_pos hpres] at hp
    obtain ⟨q, hq, hpq⟩ := List.mem_map.mp hp
    by_cases hqe : q.1 = e.id
    · rw [if_pos hqe] at hpq
      rw [← hpq]
    · rw [if_neg hqe] at hpq
      rw [← hpq]
      exact h q hq
  · rw [if_neg hpres, List.mem_append] at hp
    cases hp with
    | inl hacc => exact h p hacc
    | inr hsing =>
        rw [List.mem_singleton] at hsing
        rw [hsing]

/-- Every entry of `keyBy(list, "id")` is stored under its own id. -/
theorem idInv_keyById (l : List TemplateConfigInterface) :
    ∀ p ∈ keyById l, p.2.id = p.1 := by
  rw [keyById]
  have haux : ∀ acc : List (String × TemplateConfigInterface),
      (∀ p ∈ acc, p.2.id = p.1) →
      ∀ p ∈ l.foldl keyByIdInsert acc, p.2.id = p.1 := by
    induction l with
    | nil => intro acc h; exact h
    | cons e rest ih =>
        intro acc h
        rw [List.foldl_cons]
        exact ih (keyByIdInsert acc e) (idInv_keyByIdInsert acc e h)
  exact haux [] (by intro p hp; simp at hp)

/-- Lookup distributes over the merged-value map of `mergeById`. -/
theorem lookup_mergeById_mapPart (src dst : List (String × TemplateConfigInterface))
    (i : String) :
    (dst.map (fun p => (p.1, mergeByIdValue src p.1 p.2))).lookup i =
      (dst.lookup i).map (mergeByIdValue src i) := by
  induction dst with
  | nil => rfl
  | cons p rest ih =>
      rw [List.map_cons, List.lookup_cons, List.lookup_cons]
      cases hip : (i == p.1) with
      | true =>
          have : i = p.1 := beq_iff_eq.mp hip
          rw [this]
          rfl
      | false => exact ih

/-- Lookup in the keys-only-in-source remainder of `mergeById`. -/
theorem lookup_mergeById_filterPart (dst src : List (String × TemplateConfigInterface))
    (i : String) :
    (src.filter (fun q => (dst.lookup q.1).isNone)).lookup i =
      if (dst.lookup i).isNone then src.lookup i else none := by
  induction src with
  | nil => cases h : (dst.lookup i).isNone <;> simp [h]
  | cons q rest ih =>
      obtain ⟨k, v⟩ := q
      rw [List.filter_cons]
      by_cases hiq : i = k
      · rw [hiq] at ih ⊢
        cases hk : (dst.lookup k).isNone with
        | true => simp [List.lookup_cons, hk]
        | false => simp [ih, hk]
      · have hbeq : (i == k) = false := beq_eq_false_iff_ne.mpr hiq
        cases hk : (dst.lookup k).isNone with
        | true => simp [List.lookup_cons, hbeq, ih]
        | false => simp [List.lookup_cons, hbeq, ih]

/-- Lookup in the lodash merge of two id-keyed objects: both present merge
(source fields override), one present passes through, neither is absent. -/
theorem lookup_mergeById (dst src : List (String × TemplateConfigInterface))
    (i : String) :
    (mergeById dst src).lookup i =
      match dst.lookup i, src.lookup i with
      | some a, some b => some (mergeTemplateConfig a b)
      | some a, none => some a
      | none, some b => some b
      | none, none => none := by
  rw [mergeById, List.lookup_append, lookup_mergeById_mapPart,
    lookup_mergeById_filterPart]
  cases hd : dst.lookup i with
  | some a =>
      cases hs : src.lookup i with
      | some b => simp [mergeByIdValue, hs, Option.or]
      | none => simp [mergeByIdValue, hs, Option.or]
  | none =>
      cases hs : src.lookup i with
      | some b => simp [Option.or]
      | none => simp [Option.or]

/-- An association-list hit is a member. -/
theorem mem_of_lookup_eq_some (l : List (String × TemplateConfigInterface))
    (k : String) (v : TemplateConfigInterface) (h : l.lookup k = some v) :
    (k, v) ∈ l := by
  induction l with
  | nil => simp at h
  | cons p rest ih =>
      rw [List.lookup_cons] at h
      cases hkp : (k == p.1) with
      | true =>
          rw [hkp] at h
          have hk : k = p.1 := beq_iff_eq.mp hkp
          have hv : p.2 = v := by
            simpa using h
          have hkv : (k, v) = p := by
            rw [hk, ← hv]
          rw [hkv]
          exact List.mem_cons_self p rest
      | false =>
          rw [hkp] at h
          exact List.mem_cons_of_mem p (ih h)

/-- `mergeById` keeps every entry stored under its own id. -/
theorem idInv_mergeById (dst src : List (String × TemplateConfigInterface))
    (invd : ∀ p ∈ dst, p.2.id = p.1) (invs : ∀ p ∈ src, p.2.id = p.1) :
    ∀ p ∈ mergeById dst src, p.2.id = p.1 := by
  intro p hp
  rw [mergeById, List.mem_append] at hp
  cases hp with
  | inl h =>
      obtain ⟨q, hq, hpq⟩ := List.mem_map.mp h
      rw [← hpq]
      show (mergeByIdValue src q.1 q.2).id = q.1
      unfold mergeByIdValue
      cases hs : src.lookup q.1 with
      | none => exact invd q hq
      | some s =>
          show (mergeTemplateConfig q.2 s).id = q.1
          have hmem : (q.1, s) ∈ src := mem_of_lookup_eq_some src q.1 s hs
          exact invs (q.1, s) hmem
  | inr h =>
      exact invs p (List.mem_of_mem_filter h)

/-- The merged-value map of `mergeById` keeps the destination's keys. -/
theorem keys_mergeById_mapPart (src dst : List (String × TemplateConfigInterface)) :
    (dst.map (fun p => (p.1, mergeByIdValue src p.1 p.2))).map Prod.fst =
      dst.map Prod.fst := by
  rw [List.map_map]
  rfl

/-- `mergeById` of two objects with distinct keys has distinct keys. -/
theorem keysNodup_mergeById (dst src : List (String × TemplateConfigInterface))
    (ndd : (dst.map Prod.fst).Nodup) (nds : (src.map Prod.fst).Nodup) :
    ((mergeById dst src).map Prod.fst).Nodup := by
  rw [mergeById, List.map_append, keys_mergeById_mapPart, List.nodup_append]
  refine ⟨ndd, ?_, ?_⟩
  · exact nds.sublist ((List.filter_sublist src).map Prod.fst)
  · intro a ha hb
    obtain ⟨q, hq, hfst⟩ := List.mem_map.mp hb
    have hqf := List.mem_filter.mp hq
    have hnone : dst.lookup q.1 = none := Option.isNone_iff_eq_none.mp hqf.2
    rw [List.lookup_eq_none_iff] at hnone
    obtain ⟨p, hp, hpfst⟩ := List.mem_map.mp ha
    have hcontra := hnone p hp
    have hqp : q.1 = p.1 := hfst.trans hpfst.symm
    rw [hqp] at hcontra
    simp at hcontra

/-- `find?` by id over the values of an id-keyed object whose entries carry
their key as id agrees with lookup by key. -/
theorem findById_values (al : List (String × TemplateConfigInterface)) (i : String) :
    (∀ p ∈ al, p.2.id = p.1) →
    findById (al.map (fun p => p.2)) i = al.lookup i := by
  induction al with
  | nil => intro _; rfl
  | cons p rest ih =>
      intro inv
      obtain ⟨k, v⟩ := p
      have hv : v.id = k := inv (k, v) (List.mem_cons_self _ _)
      have hrest : ∀ q ∈ rest, q.2.id = q.1 := fun q hq =>
        inv q (List.mem_cons_of_mem _ hq)
      simp only [findById] at ih ⊢
      rw [List.map_cons, List.find?_cons, List.lookup_cons]
      by_cases hik : i = k
      · have h1 : (v.id == i) = true := beq_iff_eq.mpr (hv.trans hik.symm)
        have h2 : (i == k) = true := beq_iff_eq.mpr hik
        rw [h1, h2]
      · have h1 : (v.id == i) = false := beq_eq_false_iff_ne.mpr
          (fun h => hik (by rw [← h, hv]))
        have h2 : (i == k) = false := beq_eq_false_iff_ne.mpr hik
        rw [h1, h2]
        exact ih hrest

/-- The values of an id-keyed object with distinct keys have distinct ids. -/
theorem nodupIds_values (al : List (String × TemplateConfigInterface))
    (nd : (al.map Prod.fst).Nodup) (inv : ∀ p ∈ al, p.2.id = p.1) :
    ((al.map (fun p => p.2)).map (fun e => e.id)).Nodup := by
  rw [List.map_map]
  have h : al.map ((fun e => e.id) ∘ (fun p => p.2)) = al.map Prod.fst :=
    List.map_congr_left (fun p hp => inv p hp)
  rw [h]
  exact nd

/-- Specification of the `values(merge(keyBy(builtIn), keyBy(extension)))`
pipeline: the result has at most one entry per id, and the entry for each id
is the last built-in entry with that id merged under the last extension
entry with that id (extension properties override), or whichever side has
the id, or absent. -/
theorem mergeTemplateConfigs_spec (b e : List TemplateConfigInterface) :
    ((mergeTemplateConfigs b e).map (fun x => x.id)).Nodup ∧
    ∀ i, findById (mergeTemplateConfigs b e) i = combineById b e i := by
  have invb := idInv_keyById b
  have inve := idInv_keyById e
  have invm := idInv_mergeById (keyById b) (keyById e) invb inve
  have ndm := keysNodup_mergeById (keyById b) (keyById e)
    (keysNodup_keyById b) (keysNodup_keyById e)
  constructor
  · exact nodupIds_values _ ndm invm
  · intro i
    show findById ((mergeById (keyById b) (keyById e)).map (fun p => p.2)) i =
      combineById b e i
    rw [findById_values _ i invm, lookup_mergeById, lookup_keyById, lookup_keyById]
    rfl

/-- C9: `getApplicationTemplatesConfig` is a static merge keyed by id.  For
groups and for templates alike, the aggregated list contains at most one
entry per id, and the entry found for an id is: the built-in entry with the
extension entry's defined properties merged over it when both sides carry
the id, the plain built-in entry when only built-ins carry it, and the
plain extension entry when only the extensions carry it. -/
theorem C9_templates_config_static_merge_by_id
    (builtInGroups extensionGroups builtInTemplates extensionTemplates :
      List TemplateConfigInterface) :
    (((getApplicationTemplatesConfig builtInGroups extensionGroups builtInTemplates
        extensionTemplates).groups.map (fun x => x.id)).Nodup ∧
      ((getApplicationTemplatesConfig builtInGroups extensionGroups builtInTemplates
        extensionTemplates).templates.map (fun x => x.id)).Nodup) ∧
    (∀ i, findById (getApplicationTemplatesConfig builtInGroups extensionGroups
        builtInTemplates extensionTemplates).groups i =
      combineById builtInGroups extensionGroups i) ∧
    (∀ i, findById (getApplicationTemplatesConfig builtInGroups extensionGroups
        builtInTemplates extensionTemplates).templates i =
      combineById builtInTemplates extensionTemplates i) := by
  obtain ⟨h1, h2⟩ := mergeTemplateConfigs_spec builtInGroups extensionGroups
  obtain ⟨h3, h4⟩ := mergeTemplateConfigs_spec builtInTemplates extensionTemplates
  exact ⟨⟨h1, h3⟩, h2, h4⟩
